import Mathlib

/-!
Verification development for the structured plan execution engine
(plan memory, plan validator, plan executor, reasoning adapter, plan
generator structural checks) of the SAM repository, `src/v5/brain/`.

Python values are modelled by the inductive type `Val`; Python dicts are
modelled as association lists (`Obj`) with first-match lookup and
in-place overwrite, mirroring insertion-ordered dicts with unique keys.
External collaborators (the action executor and the reasoning engine
injected into `PlanExecutor.__init__`) are modelled as function
parameters returning `Except String Val`, a raised exception being the
`Except.error` case.  Wall-clock fields of the source (`execution_time`,
`created_at`, timestamps in history entries) are not modelled.
-/

namespace SAM

/-- Left-brace character, written via its code point so that it can also be
spliced into strings. -/
def lbraceC : Char := Char.ofNat 123

/-- Right-brace character. -/
def rbraceC : Char := Char.ofNat 125

/-- Single-quote character as a one-character string; the Python source
wraps names in single quotes inside its error messages. -/
def SQ : String := String.singleton (Char.ofNat 39)

/-- Wrap a string in single quotes, as the f-strings of the source do
with their interpolated names. -/
def q (s : String) : String := SQ ++ s ++ SQ

/-- Model of the Python values that flow through the planner: JSON scalars,
lists and dicts.  Floats are not modelled (no claim involves them). -/
inductive Val where
  | null : Val
  | bool : Bool → Val
  | int : Int → Val
  | str : String → Val
  | list : List Val → Val
  | dict : List (String × Val) → Val

/-- A Python dict with string keys, as an insertion-ordered association
list with unique keys. -/
abbrev Obj := List (String × Val)

mutual
/-- Structural equality on `Val`, used where the source compares values
with `==` or `in` (the duplicate `save_as` check, conditional steps).
Python cross-type numeric equality (`True == 1`) and order-insensitive
dict equality are not modelled; no claim exercises them. -/
def Val.beq : Val → Val → Bool
  | .null, .null => true
  | .bool a, .bool b => a == b
  | .int a, .int b => a == b
  | .str a, .str b => a == b
  | .list a, .list b => Val.beqList a b
  | .dict a, .dict b => Val.beqObj a b
  | _, _ => false

/-- Elementwise equality of value lists. -/
def Val.beqList : List Val → List Val → Bool
  | [], [] => true
  | a :: as, b :: bs => Val.beq a b && Val.beqList as bs
  | _, _ => false

/-- Pairwise equality of dict entries. -/
def Val.beqObj : List (String × Val) → List (String × Val) → Bool
  | [], [] => true
  | (k1, v1) :: as, (k2, v2) :: bs => k1 == k2 && Val.beq v1 v2 && Val.beqObj as bs
  | _, _ => false
end

/-- Dict lookup, `d.get(k)` / `d[k]`: the binding of the first (unique)
matching key. -/
def getKey : Obj → String → Option Val
  | [], _ => none
  | (k, v) :: rest, k2 => if k = k2 then some v else getKey rest k2

/-- Dict membership test, `k in d`. -/
def hasKey (o : Obj) (k : String) : Bool := (getKey o k).isSome

/-- Dict assignment `d[k] = v`: overwrite in place when the key exists
(keeping its position, as Python dicts do), else append. -/
def setKey : Obj → String → Val → Obj
  | [], k, v => [(k, v)]
  | (k1, v1) :: rest, k, v =>
      if k1 = k then (k, v) :: rest else (k1, v1) :: setKey rest k v

/-- Python `str.strip()` over the usual ASCII whitespace. -/
def isSpaceC (c : Char) : Bool :=
  c == ' ' || c == '\t' || c == '\n' || c == '\r' || c == '\x0b' || c == '\x0c'

/-- Characters of a string. -/
def chars (s : String) : List Char := s.toList

/-- Python `str.strip()`. -/
def pyStrip (s : String) : String :=
  String.mk (((chars s).dropWhile isSpaceC).reverse.dropWhile isSpaceC |>.reverse)

/-- Python `str.upper()` (ASCII range; the sentinels compared in the source
are ASCII). -/
def pyUpper (s : String) : String := String.mk ((chars s).map Char.toUpper)

/-- Python `str.lower()` (ASCII range). -/
def pyLower (s : String) : String := String.mk ((chars s).map Char.toLower)

/-- Python `str.isdigit()` (ASCII digits; unicode digit classes are not
modelled). -/
def pyIsDigit (s : String) : Bool := !(chars s).isEmpty && (chars s).all Char.isDigit

/-- Character count of a string (Python `len`). -/
def strLen (s : String) : Nat := (chars s).length

/-- First `n` characters of a string (Python slicing `s[:n]`). -/
def strTake (s : String) (n : Nat) : String := String.mk ((chars s).take n)

/-- Whether `p` is a prefix of `l`, for the `startswith` check of the
source. -/
def listStarts : List Char → List Char → Bool
  | [], _ => true
  | _ :: _, [] => false
  | p :: ps, c :: cs => p == c && listStarts ps cs

/-- Python `s.startswith(p)`. -/
def pyStartsWith (s p : String) : Bool := listStarts (chars p) (chars s)

/-- Comma-join as Python renders containers. -/
def pyStrJoin (l : List String) : String := String.intercalate ", " l

mutual
/-- Python `repr(value)`: `None`/`True`/`False` for the singletons, decimal
for ints, bracketed containers.  Quote-escaping inside string reprs is not
modelled (no claim stores strings containing quotes in containers). -/
def pyRepr : Val → String
  | .null => "None"
  | .bool b => if b then "True" else "False"
  | .int n => toString n
  | .str s => q s
  | .list l => "[" ++ pyStrJoin (pyReprList l) ++ "]"
  | .dict o => "\x7b" ++ pyStrJoin (pyReprObj o) ++ "\x7d"

/-- Reprs of the elements of a list. -/
def pyReprList : List Val → List String
  | [] => []
  | v :: rest => pyRepr v :: pyReprList rest

/-- Reprs of the entries of a dict. -/
def pyReprObj : List (String × Val) → List String
  | [] => []
  | (k, v) :: rest => (q k ++ ": " ++ pyRepr v) :: pyReprObj rest
end

/-- Python `str(value)`: identity on strings, `repr` otherwise (which is
what `str` does on `None`, booleans, ints, lists and dicts). -/
def pyStr : Val → String
  | .str s => s
  | v => pyRepr v

/-- Python repr of a list of strings, as an f-string renders
`missing_vars` in the executor. -/
def pyStrList (l : List String) : String :=
  "[" ++ pyStrJoin (l.map q) ++ "]"

/-! ### Template scanning

Both `plan_memory.py` and `plan_validator.py` use the regex
`\$\x7b([^\x7d]+)\x7d` (pattern string `template_pattern`), via `re.sub`
with a callback and via `re.findall`.  `goScan` is the shallow embedding
of the left-to-right, non-overlapping match enumeration of that pattern:
a match starts at a dollar followed by a left brace, its group is the
maximal nonempty run of non-right brace characters, closed by a right
brace; positions where the pattern fails to match contribute literal
characters.  The `Option (List Char)` state distinguishes normal scanning
from being inside a candidate match (the reversed group accumulated so
far after having consumed the dollar and the left brace). -/

/-- One token of a scanned template string: a literal character or a
matched `$\x7bname\x7d` group. -/
inductive Tok where
  | lit : Char → Tok
  | var : String → Tok

/-- The scanner; see the section comment. -/
def goScan : Option (List Char) → List Char → List Tok
  | none, [] => []
  | none, ['$'] => [.lit '$']
  | none, '$' :: l :: cs2 =>
      if l = lbraceC then goScan (some []) cs2
      else .lit '$' :: goScan none (l :: cs2)
  | none, c :: cs => .lit c :: goScan none cs
  | some acc, [] => .lit '$' :: .lit lbraceC :: acc.reverse.map .lit
  | some acc, c :: cs =>
      if c = rbraceC then
        match acc with
        | [] => .lit '$' :: .lit lbraceC :: .lit rbraceC :: goScan none cs
        | _ :: _ => .var (String.mk acc.reverse) :: goScan none cs
      else goScan (some (c :: acc)) cs

/-- Tokens of a template string. -/
def scanTemplates (s : String) : List Tok := goScan none (chars s)

/-- The characters a token stands for in the input. -/
def unparseTok : Tok → List Char
  | .lit c => [c]
  | .var n => '$' :: lbraceC :: (chars n ++ [rbraceC])

/-- Group-1 result of a token, as `re.findall` collects it. -/
def tokVar : Tok → Option String
  | .lit _ => none
  | .var n => some n

/-- `re.findall(template_pattern, text)`: the group of every match, in
order (`PlanValidator.extract_template_variables` and the extraction in
`PlanMemory.validate_template_variables`). -/
def findTemplateVars (text : String) : List String :=
  (scanTemplates text).filterMap tokVar

/-- The replacement `re.sub` performs on one match region with the
callback `replace_template` of `PlanMemory.substitute_templates`: a
stored name becomes the stringified stored value, an unresolved name is
kept verbatim (`match.group(0)`); literal characters are copied. -/
def renderTok (vars : Obj) : Tok → List Char
  | .lit c => [c]
  | .var n =>
      match getKey vars n with
      | some v => chars (pyStr v)
      | none => '$' :: lbraceC :: (chars n ++ [rbraceC])

/-! ### Memory (`plan_memory.py`) -/

/-- One entry of `execution_history`; the `timestamp` field of the source
is wall-clock time and is not modelled. -/
structure HistoryEntry where
  act : String
  varName : String
  valuePreview : String
deriving DecidableEq

/-- `PlanMemory`: the `variables` dict and the `execution_history` list
(`created_at` is wall-clock time, not modelled). -/
structure Memory where
  vars : Obj := []
  history : List HistoryEntry := []

/-- The length-truncated preview stored in a history entry:
`str(value)[:100] + "..." if len(str(value)) > 100 else str(value)`. -/
def pyPreview (s : String) : String :=
  if strLen s > 100 then strTake s 100 ++ "..." else s

/-- `PlanMemory.store`: insert/overwrite the variable, append a history
entry holding a truncated preview (the stored value itself is not
truncated). -/
def Memory.store (m : Memory) (name : String) (v : Val) : Memory :=
  { vars := setKey m.vars name v,
    history := m.history ++ [⟨"store", name, pyPreview (pyStr v)⟩] }

/-- `PlanMemory.retrieve`: `self.variables.get(variable_name)`; `None`
when absent. -/
def Memory.retrieve (m : Memory) (name : String) : Val :=
  (getKey m.vars name).getD .null

/-- `PlanMemory.get_context`: a copy of the variables dict. -/
def Memory.getContext (m : Memory) : Obj := m.vars

/-- `PlanMemory.has_variable`. -/
def Memory.hasVariable (m : Memory) (name : String) : Bool :=
  hasKey m.vars name

/-- `PlanMemory.clear`: variables and history reset. -/
def Memory.clear (_m : Memory) : Memory := {}

/-- `PlanMemory.substitute_templates`:
`re.sub(pattern, replace_template, text)` — every match region is
replaced by `renderTok`, everything else is copied. -/
def Memory.substituteTemplates (m : Memory) (text : String) : String :=
  String.mk (((scanTemplates text).map (renderTok m.vars)).flatten)

/-- `PlanMemory.validate_template_variables`: the referenced names absent
from memory, in match order. -/
def Memory.validateTemplateVariables (m : Memory) (text : String) : List String :=
  (findTemplateVars text).filter (fun n => !m.hasVariable n)

/-! ### Validator (`plan_validator.py`) -/

/-- One action of the externally supplied schema:
`\x7b description, required_args, optional_args \x7d` (the description is
not consulted by the validator). -/
structure ActionSpec where
  requiredArgs : List String := []
  optionalArgs : List String := []

/-- The action schema: `map<action_name, spec>`. -/
abbrev Schema := List (String × ActionSpec)

/-- Schema lookup by action name. -/
def getAction : Schema → String → Option ActionSpec
  | [], _ => none
  | (k, v) :: rest, k2 => if k = k2 then some v else getAction rest k2

/-- The `f"Step \x7bstep_index\x7d: "` message head. -/
def stepTag (i : Nat) : String := "Step " ++ toString i ++ ": "

/-- `PlanValidator._validate_structure`: required keys, `goal` a string,
`steps` a non-empty list, optional plan-level `reasoning` a string. -/
def validateStructure (plan : Obj) : List String :=
  (if hasKey plan "goal" then [] else ["Missing required key: " ++ q "goal"]) ++
  (if hasKey plan "steps" then [] else ["Missing required key: " ++ q "steps"]) ++
  (match getKey plan "goal" with
    | some (.str _) => []
    | some _ => [q "goal" ++ " must be a string"]
    | none => []) ++
  (match getKey plan "steps" with
    | some (.list l) => if l.isEmpty then [q "steps" ++ " cannot be empty"] else []
    | some _ => [q "steps" ++ " must be a list"]
    | none => []) ++
  (match getKey plan "reasoning" with
    | some (.str _) => []
    | some _ => [q "reasoning" ++ " must be a string"]
    | none => [])

/-- The step-type portion of `PlanValidator._validate_single_step`
(lines 103-110): a step must carry `action` or `reasoning`, not both; no
other key (in particular not `condition`) counts as a step type here. -/
def stepTypeErrors (o : Obj) (i : Nat) : List String :=
  if !hasKey o "action" && !hasKey o "reasoning" then
    [stepTag i ++ "must have either " ++ q "action" ++ " or " ++ q "reasoning"]
  else if hasKey o "action" && hasKey o "reasoning" then
    [stepTag i ++ "cannot have both " ++ q "action" ++ " and " ++ q "reasoning"]
  else []

/-- `PlanValidator._validate_action_args`: unknown argument names,
missing required arguments, non-primitive argument values. -/
def validateActionArgs (args : Obj) (actionName : String) (spec : ActionSpec)
    (i : Nat) : List String :=
  let allValid := spec.requiredArgs ++ spec.optionalArgs
  (args.map (fun kv =>
    if allValid.contains kv.1 then []
    else [stepTag i ++ "invalid argument " ++ q kv.1 ++ " for action " ++ q actionName])).flatten ++
  (spec.requiredArgs.map (fun r =>
    if hasKey args r then []
    else [stepTag i ++ "missing required argument " ++ q r ++ " for action " ++ q actionName])).flatten ++
  (args.map (fun kv =>
    match kv.2 with
    | .list _ => [stepTag i ++ "argument " ++ q kv.1 ++ " must be a primitive type"]
    | .dict _ => [stepTag i ++ "argument " ++ q kv.1 ++ " must be a primitive type"]
    | _ => [])).flatten

/-- `PlanValidator._validate_action_step`.  A non-string action name is
reported as unknown via its f-string rendering (in Python an unhashable
action value would instead raise; validated plans never carry one, and
hashable non-strings are likewise never keys of the string-keyed
schema). -/
def validateActionStep (o : Obj) (i : Nat) (schema : Schema) : List String :=
  match getKey o "action" with
  | some (.str name) =>
      match getAction schema name with
      | none => [stepTag i ++ "unknown action " ++ q name]
      | some spec =>
          match getKey o "args" with
          | some (.dict args) => validateActionArgs args name spec i
          | some _ => [stepTag i ++ q "args" ++ " must be a dictionary"]
          | none => []
  | some v => [stepTag i ++ "unknown action " ++ q (pyStr v)]
  | none => []

/-- The reasoning-step check of `PlanValidator._validate_reasoning_step`. -/
def validateReasoningStepV (o : Obj) (i : Nat) : List String :=
  match getKey o "reasoning" with
  | some (.str s) =>
      if pyStrip s = "" then [stepTag i ++ q "reasoning" ++ " cannot be empty"] else []
  | some _ => [stepTag i ++ q "reasoning" ++ " must be a string"]
  | none => []

/-- `PlanValidator._validate_single_step`. -/
def validateSingleStep (step : Val) (i : Nat) (schema : Schema) : List String :=
  match step with
  | .dict o =>
      (if hasKey o "id" then [] else [stepTag i ++ "missing " ++ q "id" ++ " field"]) ++
      stepTypeErrors o i ++
      (if hasKey o "action" then validateActionStep o i schema else []) ++
      (if hasKey o "reasoning" then validateReasoningStepV o i else []) ++
      (match getKey o "save_as" with
        | some (.str s) =>
            if pyStrip s = "" then [stepTag i ++ q "save_as" ++ " cannot be empty"] else []
        | some _ => [stepTag i ++ q "save_as" ++ " must be a string"]
        | none => [])
  | _ => [stepTag i ++ "must be a dictionary"]

/-- `PlanValidator._validate_steps`: every step in order, 0-indexed. -/
def validateSteps (steps : List Val) (schema : Schema) : List String :=
  (steps.enum.map (fun p => validateSingleStep p.2 p.1 schema)).flatten

/-- The undefined-variable message of
`PlanValidator._validate_memory_references`. -/
def undefMsg (i : Nat) (v argName : String) : String :=
  stepTag i ++ "references undefined variable " ++ q ("$" ++ v) ++
    " in argument " ++ q argName

/-- The errors one step contributes in
`PlanValidator._validate_memory_references`, given the currently defined
set: each `$\x7bname\x7d` in a string argument value whose name is not
defined.  Non-dict steps and non-dict `args` are skipped (the source
guards with `isinstance`). -/
def stepRefErrors (defined : List String) (i : Nat) (step : Val) : List String :=
  match step with
  | .dict o =>
      match getKey o "args" with
      | some (.dict args) =>
          (args.map (fun kv =>
            match kv.2 with
            | .str s =>
                ((findTemplateVars s).filter (fun v => !defined.contains v)).map
                  (fun v => undefMsg i v kv.1)
            | _ => [])).flatten
      | _ => []
  | _ => []

/-- The `save_as` name a step adds to the defined set (only when present
and a string, per the `isinstance` guard of the source). -/
def saveOfStep : Val → List String
  | .dict o =>
      match getKey o "save_as" with
      | some (.str s) => [s]
      | _ => []
  | _ => []

/-- The walk of `PlanValidator._validate_memory_references`: steps in
declared order, the defined set grown after each step. -/
def memRefLoop (defined : List String) (i : Nat) : List Val → List String
  | [] => []
  | step :: rest =>
      stepRefErrors defined i step ++ memRefLoop (defined ++ saveOfStep step) (i + 1) rest

/-- `PlanValidator._validate_memory_references`, seeded with the empty
defined set at index 0. -/
def validateMemoryReferences (steps : List Val) : List String :=
  memRefLoop [] 0 steps

/-- The duplicate-`save_as` walk of `PlanValidator._validate_logical_flow`
(the `save_as` value is tracked whatever its type here; the source does
not type-guard it in this check). -/
def dupSaveLoop (defined : List Val) (i : Nat) : List Val → List String
  | [] => []
  | step :: rest =>
      match step with
      | .dict o =>
          match getKey o "save_as" with
          | some v =>
              (if defined.any (Val.beq v) then
                [stepTag i ++ "variable " ++ q (pyStr v) ++ " is defined multiple times"]
               else []) ++ dupSaveLoop (defined ++ [v]) (i + 1) rest
          | none => dupSaveLoop defined (i + 1) rest
      | _ => dupSaveLoop defined (i + 1) rest

/-- `PlanValidator._validate_logical_flow`: at most 10 steps, and no
`save_as` name declared twice. -/
def validateLogicalFlow (steps : List Val) : List String :=
  (if steps.length > 10 then ["Plan has too many steps (max 10)"] else []) ++
  dupSaveLoop [] 0 steps

/-- The `steps` list of a plan; only consulted after structural
validation has guaranteed the key exists and holds a list (Python would
raise a `KeyError` otherwise). -/
def planSteps (plan : Obj) : List Val :=
  match getKey plan "steps" with
  | some (.list l) => l
  | _ => []

/-- `PlanValidator.validate_plan`: structure first (suppressing the other
checks on failure), then per-step, memory-reference and logical-flow
checks, errors accumulated in that order;
`is_valid = (errors is empty)`. -/
def validatePlan (plan : Obj) (schema : Schema) : Bool × List String :=
  let se := validateStructure plan
  if se.isEmpty then
    let steps := planSteps plan
    let errs := validateSteps steps schema ++ validateMemoryReferences steps ++
      validateLogicalFlow steps
    (errs.isEmpty, errs)
  else (false, se)

/-! ### Reasoning adapter (`reasoning_engine.py`) -/

/-- `ReasoningEngine.validate_reasoning_result`: flags exact error
sentinels (after upcasing), `ERROR:`-prefixed strings, `None`, the empty
string, and string results longer than 1000 characters. -/
def validateReasoningResult (result : Val) (_instruction : String) : Bool :=
  let sentinel :=
    match result with
    | .str s =>
        (pyUpper s = "INSUFFICIENT_DATA" || pyUpper s = "ERROR" ||
         pyUpper s = "REASONING_ERROR") || pyStartsWith (pyUpper s) "ERROR:"
    | _ => false
  if sentinel then false
  else if (match result with | .null => true | .str s => s = "" | _ => false) then false
  else
    match result with
    | .str s => decide (strLen s ≤ 1000)
    | _ => true

/-- `ReasoningEngine.execute_reasoning_step` given the black-box LLM call
`llm instruction memoryText` (the rendering `memory.format_for_llm()` the
source passes as second argument is opaque here): a raised exception is
caught and turned into the string result `REASONING_ERROR: ...`; the
adapter itself never raises. -/
def engineExecuteReasoningStep (llm : String → String → Except String Val)
    (instruction : String) (memoryText : String) : Val :=
  match llm instruction memoryText with
  | .ok r => r
  | .error e => .str ("REASONING_ERROR: " ++ e)

/-! ### Plan executor (`plan_executor.py`)

`PlanExecutor.__init__(reasoning_engine, action_executor, actions_schema)`
receives its collaborators by injection; they are modelled by the
`Collaborators` bundle.  `reasoningExec` stands for the injected engine
object's `execute_reasoning_step(instruction, memory)` and
`validateReasoning` for its `validate_reasoning_result`; `actionExec`
stands for the `action_executor` callable.  An `Except.error` models a
raised exception. -/

/-- The injected collaborators of a `PlanExecutor`. -/
structure Collaborators where
  actionExec : String → Obj → Except String Val
  reasoningExec : String → Memory → Except String Val
  validateReasoning : Val → String → Bool

/-- One step-result dict (`StepResult`); absent keys are `none`.
`execution_time` is wall-clock and not modelled. -/
structure StepResult where
  stepType : String := ""
  error : Option String := none
  action : Option String := none
  args : Option Obj := none
  result : Option Val := none
  instruction : Option String := none
  isValid : Option Bool := none
  condition : Option String := none
  nextId : Option Val := none
  evaluatedCondition : Option Val := none
  stepNumber : Nat := 0

/-- The string value of an optional `Val` known (by prior validation) to
be a string; stands for the direct Python access `step["action"]`,
`step["reasoning"]`, `step["condition"]`, `step["save_as"]`. -/
def asStr : Option Val → String
  | some (.str s) => s
  | _ => ""

/-- The dict value of `step.get("args", \x7b\x7d)`; a present non-dict
`args` would make Python raise inside the handler (validated action steps
never carry one). -/
def asObj : Option Val → Obj
  | some (.dict o) => o
  | _ => []

/-- `PlanExecutor._execute_action_step`: substitute templates into every
string argument value, fail on still-unresolved variables, else dispatch
to the action collaborator, converting a raised exception into the
step error `Action execution failed: ...`. -/
def executeActionStep (col : Collaborators) (mem : Memory) (o : Obj) : StepResult :=
  let actionName := asStr (getKey o "action")
  let args := asObj (getKey o "args")
  let substituted := args.map (fun kv =>
    match kv.2 with
    | .str s => (kv.1, Val.str (mem.substituteTemplates s))
    | _ => kv)
  let missing := (substituted.map (fun kv =>
    match kv.2 with
    | .str s => mem.validateTemplateVariables s
    | _ => [])).flatten
  if missing.isEmpty then
    match col.actionExec actionName substituted with
    | .ok r =>
        { stepType := "action", action := some actionName, args := some substituted,
          result := some r }
    | .error e =>
        { stepType := "action", error := some ("Action execution failed: " ++ e),
          action := some actionName, args := some substituted }
  else
    { stepType := "action",
      error := some ("Missing template variables: " ++ pyStrList missing),
      action := some actionName, args := some substituted }

/-- `PlanExecutor._execute_reasoning_step`: call the injected engine,
catching a raised exception as `Reasoning execution failed: ...`; on
success record the result together with the validity flag (which is
computed but carries no control-flow effect). -/
def executeReasoningStep (col : Collaborators) (mem : Memory) (o : Obj) : StepResult :=
  let instr := asStr (getKey o "reasoning")
  match col.reasoningExec instr mem with
  | .ok r =>
      { stepType := "reasoning", instruction := some instr, result := some r,
        isValid := some (col.validateReasoning r instr) }
  | .error e =>
      { stepType := "reasoning", error := some ("Reasoning execution failed: " ++ e),
        instruction := some instr }

/-- Python `str.split(sep)` on the two-character separator `==`, used by
the conditional handler. -/
def splitOnEqEq (s : String) : List String :=
  splitAux (chars s) []
where
  /-- Scan for `==`, accumulating the current (reversed) piece. -/
  splitAux : List Char → List Char → List String
    | [], acc => [String.mk acc.reverse]
    | '=' :: '=' :: rest, acc => String.mk acc.reverse :: splitAux rest []
    | c :: rest, acc => splitAux rest (c :: acc)

/-- `PlanExecutor._execute_conditional_step`.  A missing `next_id` raises
a `KeyError` outside the handler's `try`, caught by `_execute_step` as a
step of type `error`; a `$\x7bvar\x7d == literal` condition is evaluated
against memory with `true`/`false`/digit coercion of the literal; any
other condition is forwarded to the reasoning engine. -/
def executeConditionalStep (col : Collaborators) (mem : Memory) (o : Obj) : StepResult :=
  let condition := asStr (getKey o "condition")
  match getKey o "next_id" with
  | none => { stepType := "error", error := some (q "next_id") }
  | some nextId =>
      match splitOnEqEq condition with
      | [_] =>
          match col.reasoningExec ("Evaluate: " ++ condition) mem with
          | .ok r =>
              { stepType := "conditional", condition := some condition,
                nextId := some nextId, result := some r, evaluatedCondition := some r }
          | .error e =>
              { stepType := "conditional",
                error := some ("Conditional execution failed: " ++ e),
                condition := some condition, nextId := some nextId }
      | [lhs, rhs] =>
          let varName := ((pyStrip lhs).replace ("$" ++ String.singleton lbraceC) "").replace
            (String.singleton rbraceC) ""
          let expectedRaw := pyStrip rhs
          let actual := mem.retrieve varName
          let expected : Val :=
            if pyLower expectedRaw = "true" then .bool true
            else if pyLower expectedRaw = "false" then .bool false
            else if pyIsDigit expectedRaw then .int ((expectedRaw.toNat?.map Int.ofNat).getD 0)
            else .str expectedRaw
          { stepType := "conditional", condition := some condition, nextId := some nextId,
            result := some (.bool (Val.beq actual expected)),
            evaluatedCondition := some (.str (varName ++ " == " ++ pyStr actual ++
              " (expected: " ++ pyStr expected ++ ")")) }
      | _ =>
          { stepType := "conditional",
            error := some "Conditional execution failed: too many values to unpack (expected 2)",
            condition := some condition, nextId := some nextId }

/-- `PlanExecutor._execute_step`: dispatch on which variant key the step
dict carries; a step with none of the three keys is an `unknown`-type
error.  A non-dict step makes the key test raise in Python (caught by the
outer `except` as a step of type `error`); validated plans only carry
dict steps. -/
def executeStep (col : Collaborators) (mem : Memory) (step : Val) (i : Nat) : StepResult :=
  match step with
  | .dict o =>
      let r :=
        if hasKey o "action" then executeActionStep col mem o
        else if hasKey o "reasoning" then executeReasoningStep col mem o
        else if hasKey o "condition" then executeConditionalStep col mem o
        else
          { stepType := "unknown",
            error := some ("Step must have either " ++ q "action" ++ ", " ++
              q "reasoning" ++ ", or " ++ q "condition") }
      { r with stepNumber := i }
  | _ => { stepType := "error", error := some "argument of type is not iterable",
           stepNumber := i }

/-- The `save_as` write performed right after a step executes: the step
result's `result` value (or `None` when absent) stored under the declared
name. -/
def saveOne (mem : Memory) (step : Val) (sr : StepResult) : Memory :=
  match step with
  | .dict o =>
      match getKey o "save_as" with
      | some sv => mem.store (asStr sv) (sr.result.getD .null)
      | none => mem
  | _ => mem

/-- The plan-level execution result dict (`ExecutionResult`);
`execution_time` and `memory_summary` are wall-clock dependent and not
modelled. -/
structure ExecRes where
  success : Bool
  goal : Option Val := none
  error : Option String := none
  validationErrors : Option (List String) := none
  results : List StepResult := []
  finalMemory : Obj := []

/-- The step loop of `PlanExecutor.execute_plan` (lines 69-107):
1-indexed steps, result appended, `save_as` stored immediately, halt on
the first step result carrying an `error`. -/
def runSteps (col : Collaborators) (goal : Option Val) :
    List Val → Nat → Memory → List StepResult → ExecRes × Memory
  | [], _, mem, acc =>
      ({ success := true, goal := goal, results := acc,
         finalMemory := mem.getContext }, mem)
  | step :: rest, i, mem, acc =>
      let sr := executeStep col mem step i
      let mem2 := saveOne mem step sr
      match sr.error with
      | some e =>
          ({ success := false,
             error := some ("Step " ++ toString i ++ " failed: " ++ e),
             goal := goal, results := acc ++ [sr],
             finalMemory := mem2.getContext }, mem2)
      | none => runSteps col goal rest (i + 1) mem2 (acc ++ [sr])

/-- `PlanExecutor.execute_plan`: validate first and return immediately on
failure (before `memory.clear()` — the executor's memory then keeps its
prior state); otherwise clear memory and run the steps.  The returned
`Memory` is the executor's memory field after the call. -/
def executePlan (col : Collaborators) (schema : Schema) (plan : Obj)
    (mem0 : Memory) : ExecRes × Memory :=
  let v := validatePlan plan schema
  if v.1 then
    runSteps col (getKey plan "goal") (planSteps plan) 1 (mem0.clear) []
  else
    ({ success := false, error := some "Plan validation failed",
       validationErrors := some v.2, goal := getKey plan "goal",
       results := [], finalMemory := [] }, mem0)

/-! ### Plan generator structural checks (`unified_llm_client.py`) -/

/-- The structural validation `_parse_plan_response` performs on a
successfully JSON-decoded reply object (lines 339-352): it must be a
dict, carry a `steps` key, and that key must hold a list.  No other key
is checked at this stage. -/
def parsePlanStructureCheck (plan : Val) : Except String Val :=
  match plan with
  | .dict o =>
      if hasKey o "steps" then
        match getKey o "steps" with
        | some (.list _) => .ok plan
        | _ => .error "Steps must be a list"
      else .error ("Plan must contain " ++ q "steps" ++ " key")
  | _ => .error "Plan must be a dictionary"

/-! ### Spec-side definitions and concrete instances used by the theorems -/

/-- Replay of the `save_as` writes of a list of executed steps paired with
their recorded results; used to state what `final_memory` reflects. -/
def applySaves (mem : Memory) : List (Val × StepResult) → Memory
  | [] => mem
  | (step, sr) :: rest => applySaves (saveOne mem step sr) rest

/-- The `save_as` names declared by the strictly earlier steps
(indices `< i`), written directly from the wording of the spec. -/
def earlierSaves (steps : List Val) (i : Nat) : List String :=
  ((steps.take i).map saveOfStep).flatten

/-- Memory-reference errors computed per the wording of the spec: each
step checked against exactly the `save_as` names of the strictly earlier
steps. -/
def specMemRefErrors (steps : List Val) : List String :=
  ((List.range steps.length).map
    (fun i => stepRefErrors (earlierSaves steps i) i (steps.getD i .null))).flatten

/-- Action schema of the scenario in the spec: `get_events` and
`create_event`. -/
def demoSchema : Schema :=
  [("get_events", { requiredArgs := ["date"] }),
   ("create_event", { requiredArgs := ["title", "start_time"] })]

/-- Collaborators whose action executor always raises. -/
def colBoom : Collaborators :=
  { actionExec := fun _ _ => .error "boom",
    reasoningExec := fun _ _ => .ok (.str "7:00 PM"),
    validateReasoning := validateReasoningResult }

/-- Collaborators whose reasoning engine raises. -/
def colLLMDown : Collaborators :=
  { actionExec := fun _ _ => .ok (.str "done"),
    reasoningExec := fun _ _ => .error "LLM unavailable",
    validateReasoning := validateReasoningResult }

/-- Collaborators whose reasoning engine returns an empty-string result,
which `validate_reasoning_result` flags as invalid. -/
def colEmptyReason : Collaborators :=
  { actionExec := fun _ _ => .ok (.str "done"),
    reasoningExec := fun _ _ => .ok (.str ""),
    validateReasoning := validateReasoningResult }

/-- A well-formed reasoning step. -/
def demoStepR (n : Nat) : Val :=
  .dict [("id", Val.str ("s" ++ toString n)), ("reasoning", Val.str "think")]

/-- An 11-step plan (every step individually well-formed). -/
def plan11 : Obj :=
  [("goal", Val.str "g"), ("steps", Val.list ((List.range 11).map demoStepR))]

/-- A parsed reply object with a list-typed `steps` key but no `goal`. -/
def noGoalPlan : Obj := [("steps", Val.list [])]

/-- A plan whose single step carries only an `id`, a `condition` and a
`next_id`. -/
def condOnlyPlan : Obj :=
  [("goal", Val.str "g"),
   ("steps", Val.list [.dict [("id", Val.str "s1"),
     ("condition", Val.str "$\x7bx\x7d == true"),
     ("next_id", Val.str "s2")]])]

/-- The single step of `condOnlyPlan`. -/
def condOnlyStep : Obj :=
  [("id", Val.str "s1"), ("condition", Val.str "$\x7bx\x7d == true"),
   ("next_id", Val.str "s2")]

/-- The three-step scenario plan of the spec. -/
def scenarioPlan : Obj :=
  [("goal", Val.str "t"),
   ("steps", Val.list [
     .dict [("id", Val.str "s1"), ("action", Val.str "get_events"),
            ("args", Val.dict [("date", Val.str "today")]),
            ("save_as", Val.str "events")],
     .dict [("id", Val.str "s2"), ("reasoning", Val.str "find a free slot"),
            ("save_as", Val.str "slot")],
     .dict [("id", Val.str "s3"), ("action", Val.str "create_event"),
            ("args", Val.dict [("title", Val.str "dinner"),
                               ("start_time", Val.str "$\x7bslot\x7d")])]])]

/-- An action step that fails at dispatch while declaring `save_as`. -/
def failSaveStep : Obj :=
  [("id", Val.str "s1"), ("action", Val.str "get_events"),
   ("args", Val.dict [("date", Val.str "today")]), ("save_as", Val.str "events")]

/-- A well-formed reasoning step declaring `save_as`. -/
def reasonStep : Obj :=
  [("id", Val.str "s1"), ("reasoning", Val.str "think"), ("save_as", Val.str "r")]

/-! ### Association-list lemmas -/

theorem getKey_setKey_self (l : Obj) (k : String) (v : Val) :
    getKey (setKey l k v) k = some v := by
  induction l with
  | nil => simp [setKey, getKey]
  | cons kv rest ih =>
      obtain ⟨k1, v1⟩ := kv
      by_cases h : k1 = k
      · simp [setKey, h, getKey]
      · simp [setKey, h, getKey, ih]

theorem getKey_setKey_ne (l : Obj) (k k2 : String) (v : Val) (h : k2 ≠ k) :
    getKey (setKey l k v) k2 = getKey l k2 := by
  have hne : k ≠ k2 := fun hh => h hh.symm
  induction l with
  | nil => simp [setKey, getKey, hne]
  | cons kv rest ih =>
      obtain ⟨k1, v1⟩ := kv
      by_cases h1 : k1 = k
      · subst h1
        simp [setKey, getKey, hne]
      · simp [setKey, h1, getKey, ih]

theorem hasKey_of_getKey (o : Obj) (k : String) (v : Val) (h : getKey o k = some v) :
    hasKey o k = true := by
  simp [hasKey, h]

theorem getKey_eq_none_of_not_hasKey (o : Obj) (k : String) (h : hasKey o k = false) :
    getKey o k = none := by
  simp only [hasKey] at h
  exact Option.not_isSome_iff_eq_none.mp (by simp [h])

/-! ### Claim C9 -/

/-- Claim C9: `validate_plan` is deterministic — two calls on the same
plan and schema return identical `(is_valid, errors)` pairs (in this pure
embedding, definitionally so) — and `is_valid` is `true` exactly when the
accumulated error list is empty. -/
theorem claim9_validate_plan_deterministic_and_consistent :
    ∀ (plan : Obj) (schema : Schema),
      validatePlan plan schema = validatePlan plan schema ∧
      ((validatePlan plan schema).1 = true ↔ (validatePlan plan schema).2 = []) := by
  intro plan schema
  refine ⟨rfl, ?_⟩
  unfold validatePlan
  by_cases h : (validateStructure plan).isEmpty
  · simp only [h, if_true]
    constructor
    · intro h1
      exact List.isEmpty_iff.mp h1
    · intro h1
      simp [h1]
  · simp only [h, if_false]
    constructor
    · intro h1
      exact absurd h1 (by simp)
    · intro h1
      exact absurd (List.isEmpty_iff.mpr h1) h

/-! ### Claim C8 -/

/-- Claim C8: after `store(name, value)`, `retrieve(name)` returns the
stored value exactly (no truncation, whatever its length); `store` does
not disturb other bindings; re-storing the same name overwrites it; and
history entries carry only a bounded (length-truncated) preview, never
longer than 103 characters. -/
theorem claim8_store_retrieve_roundtrip :
    ∀ (m : Memory) (name : String) (v : Val),
      (m.store name v).retrieve name = v ∧
      (∀ n2, n2 ≠ name → (m.store name v).retrieve n2 = m.retrieve n2) ∧
      (∀ v2, ((m.store name v).store name v2).retrieve name = v2) ∧
      (∀ e ∈ (m.store name v).history, e ∈ m.history ∨ strLen e.valuePreview ≤ 103) := by
  intro m name v
  have hround : ∀ (m2 : Memory) (v2 : Val), (m2.store name v2).retrieve name = v2 := by
    intro m2 v2
    simp [Memory.store, Memory.retrieve, getKey_setKey_self]
  refine ⟨hround m v, ?_, fun v2 => hround _ v2, ?_⟩
  · intro n2 hne
    simp [Memory.store, Memory.retrieve, getKey_setKey_ne _ _ _ _ hne]
  · intro e he
    simp only [Memory.store, List.mem_append, List.mem_singleton] at he
    rcases he with he | he
    · exact Or.inl he
    · right
      subst he
      simp only [pyPreview]
      by_cases hlen : strLen (pyStr v) > 100
      · simp only [hlen, if_true]
        have h1 : strTake (pyStr v) 100 ++ "..." =
            String.mk ((chars (pyStr v)).take 100 ++ chars "...") := rfl
        rw [h1]
        have h2 : strLen (String.mk ((chars (pyStr v)).take 100 ++ chars "...")) =
            ((chars (pyStr v)).take 100).length + (chars "...").length := by
          simp [strLen, chars]
        rw [h2]
        have h3 := List.length_take_le 100 (chars (pyStr v))
        have h4 : (chars "...").length = 3 := rfl
        omega
      · simp only [hlen, if_false]
        simp only [strLen] at hlen ⊢
        omega

/-- Witness for C8 at a concrete long value: a 150-character string is
retrieved untruncated while its history preview is bounded. -/
theorem claim8_witness :
    (((Memory.store {} "x" (Val.str (String.mk (List.replicate 150 'a')))).retrieve "x") =
       Val.str (String.mk (List.replicate 150 'a'))) ∧
    ((Memory.store {} "x" (Val.str "short")).retrieve "y" = Memory.retrieve {} "y") ∧
    (((Memory.store {} "x" (Val.str "v1")).store "x" (Val.str "v2")).retrieve "x" =
       Val.str "v2") ∧
    (∀ e ∈ (Memory.store {} "x" (Val.str (String.mk (List.replicate 150 'a')))).history,
       e ∈ (Memory.history {}) ∨ strLen e.valuePreview ≤ 103) := by
  have h := claim8_store_retrieve_roundtrip {} "x"
    (Val.str (String.mk (List.replicate 150 'a')))
  refine ⟨h.1, ?_, ?_, h.2.2.2⟩
  · exact (claim8_store_retrieve_roundtrip {} "x" (Val.str "short")).2.1 "y" (by decide)
  · exact (claim8_store_retrieve_roundtrip {} "x" (Val.str "v1")).2.2.1 (Val.str "v2")

/-! ### Claim C1 -/

/-- Claim C1: when validation fails, `execute_plan` returns immediately
with `success=false`, the validation errors, an empty results list and an
empty `final_memory` snapshot; the executor's memory is untouched (the
return happens even before `clear()` on this path) and the result is
independent of the collaborators, so no step is dispatched and the action
collaborator is never invoked. -/
theorem claim1_validation_failure_short_circuit :
    ∀ (col : Collaborators) (schema : Schema) (plan : Obj) (mem0 : Memory),
      (validatePlan plan schema).1 = false →
      executePlan col schema plan mem0 =
        ({ success := false, error := some "Plan validation failed",
           validationErrors := some (validatePlan plan schema).2,
           goal := getKey plan "goal", results := [], finalMemory := [] }, mem0) ∧
      (∀ col2, executePlan col2 schema plan mem0 = executePlan col schema plan mem0) := by
  intro col schema plan mem0 h
  constructor
  · unfold executePlan
    simp [h]
  · intro col2
    unfold executePlan
    simp [h]

/-- Witness for C1: an 11-step plan is rejected with exactly the
"too many steps" error, execution returns the failure result with no
step results, and the outcome does not depend on the collaborators. -/
theorem claim1_witness :
    (validatePlan plan11 []).2 = ["Plan has too many steps (max 10)"] ∧
    executePlan colBoom [] plan11 {} =
      ({ success := false, error := some "Plan validation failed",
         validationErrors := some (validatePlan plan11 []).2,
         goal := some (Val.str "g"), results := [], finalMemory := [] },
       ({} : Memory)) ∧
    (∀ col2, executePlan col2 [] plan11 {} = executePlan colBoom [] plan11 {}) := by
  have h := claim1_validation_failure_short_circuit colBoom [] plan11 {} (by rfl)
  exact ⟨rfl, h.1, h.2⟩

/-! ### Claim C3 (corrected) -/

/-- Counterexample to C3 as stated: a plan whose single step carries an
`id` and exactly the `condition` variant field is rejected by the
validator with precisely the step-type error (so a condition-only step
does not pass the step-type check). -/
theorem claim3_counterexample :
    (validatePlan condOnlyPlan []).2 =
      [stepTag 0 ++ "must have either " ++ q "action" ++ " or " ++ q "reasoning"] ∧
    (validatePlan condOnlyPlan []).1 = false := ⟨rfl, rfl⟩

/-- Claim C3 (amended): the validator's step-type check accepts a step
exactly when it carries exactly one of the two variant fields
`action`/`reasoning`; a step carrying neither — in particular a step
with only a `condition` field — is flagged with the step-type error. -/
theorem claim3_amended_step_type_check :
    ∀ (o : Obj) (i : Nat),
      (stepTypeErrors o i = [] ↔
        (hasKey o "action" = true ∧ hasKey o "reasoning" = false) ∨
        (hasKey o "action" = false ∧ hasKey o "reasoning" = true)) ∧
      (hasKey o "action" = false → hasKey o "reasoning" = false →
        stepTypeErrors o i =
          [stepTag i ++ "must have either " ++ q "action" ++ " or " ++ q "reasoning"]) := by
  intro o i
  unfold stepTypeErrors
  rcases ha : hasKey o "action" <;> rcases hr : hasKey o "reasoning" <;> simp

/-- Witness for C3 (amended): the condition-only step of the
counterexample plan receives exactly the step-type error. -/
theorem claim3_witness :
    stepTypeErrors condOnlyStep 0 =
      [stepTag 0 ++ "must have either " ++ q "action" ++ " or " ++ q "reasoning"] :=
  (claim3_amended_step_type_check condOnlyStep 0).2 rfl rfl

/-! ### Claim C7 (corrected) -/

/-- Counterexample to C7 as stated: a successfully parsed reply object
with a list-typed `steps` key but no `goal` key passes the pre-validation
structural check of `_parse_plan_response` (it is not rejected before
reaching the Validator). -/
theorem claim7_counterexample :
    parsePlanStructureCheck (.dict noGoalPlan) = .ok (.dict noGoalPlan) ∧
    hasKey noGoalPlan "goal" = false := ⟨rfl, rfl⟩

/-- Claim C7 (amended): the pre-validation structural check only requires
the parsed object to be a dict with a list-typed `steps` key; a missing
`goal` key is not rejected pre-validation but is caught afterwards by the
Validator, whose report then contains the missing-`goal` error and is
invalid. -/
theorem claim7_amended_parse_structure :
    (∀ v : Val, (∃ w, parsePlanStructureCheck v = .ok w) ↔
       ∃ o l, v = .dict o ∧ getKey o "steps" = some (.list l)) ∧
    (∀ (o : Obj) (schema : Schema), hasKey o "goal" = false →
       (validatePlan o schema).1 = false ∧
       ("Missing required key: " ++ q "goal") ∈ (validatePlan o schema).2) := by
  constructor
  · intro v
    constructor
    · intro ⟨w, hw⟩
      match v with
      | .dict o =>
          by_cases hs : hasKey o "steps"
          · rcases hk : getKey o "steps" with _ | sv
            · simp [hasKey, hk] at hs
            · match sv with
              | .list l => exact ⟨o, l, rfl, hk⟩
              | .null | .bool _ | .int _ | .str _ | .dict _ =>
                  simp [parsePlanStructureCheck, hs, hk] at hw
          · simp [parsePlanStructureCheck, hs] at hw
      | .null | .bool _ | .int _ | .str _ | .list _ =>
          simp [parsePlanStructureCheck] at hw
    · intro ⟨o, l, hv, hk⟩
      subst hv
      refine ⟨.dict o, ?_⟩
      simp [parsePlanStructureCheck, hasKey, hk]
  · intro o schema h
    have hmem : ("Missing required key: " ++ q "goal") ∈ validateStructure o := by
      unfold validateStructure
      simp [h]
    have hne : (validateStructure o).isEmpty = false := by
      rcases hse : validateStructure o with _ | ⟨a, rest⟩
      · rw [hse] at hmem
        cases hmem
      · rfl
    have hres : validatePlan o schema = (false, validateStructure o) := by
      unfold validatePlan
      simp [hne]
    rw [hres]
    exact ⟨rfl, hmem⟩

/-- Witness for C7 (amended): the goal-less object passes the parse-time
check and the Validator subsequently reports the missing `goal`. -/
theorem claim7_witness :
    (∃ w, parsePlanStructureCheck (.dict noGoalPlan) = .ok w) ∧
    (validatePlan noGoalPlan []).1 = false ∧
    ("Missing required key: " ++ q "goal") ∈ (validatePlan noGoalPlan []).2 := by
  refine ⟨?_, ?_, ?_⟩
  · exact (claim7_amended_parse_structure.1 (.dict noGoalPlan)).mpr
      ⟨noGoalPlan, [], rfl, rfl⟩
  · exact (claim7_amended_parse_structure.2 noGoalPlan [] rfl).1
  · exact (claim7_amended_parse_structure.2 noGoalPlan [] rfl).2

/-! ### Claim C10 -/

/-- Claim C10: a step that declares `save_as` and fails (error set,
`result` absent) still causes a write before the halt — `None` is stored
under the declared name, so the failure result's `final_memory` and the
executor's memory map that name to `None`. -/
theorem claim10_failed_step_saves_none :
    ∀ (col : Collaborators) (goal : Option Val) (o : Obj) (name : String)
      (rest : List Val) (i : Nat) (mem : Memory) (acc : List StepResult) (e : String),
      getKey o "save_as" = some (.str name) →
      (executeStep col mem (.dict o) i).error = some e →
      (executeStep col mem (.dict o) i).result = none →
      ((runSteps col goal (Val.dict o :: rest) i mem acc).1.success = false ∧
       getKey ((runSteps col goal (Val.dict o :: rest) i mem acc).1.finalMemory) name =
         some Val.null ∧
       ((runSteps col goal (Val.dict o :: rest) i mem acc).2).retrieve name = Val.null) := by
  intro col goal o name rest i mem acc e hsave herr hres
  have hmem2 : saveOne mem (.dict o) (executeStep col mem (.dict o) i) =
      mem.store name Val.null := by
    simp only [saveOne, hsave, hres]
    rfl
  have hrun : runSteps col goal (Val.dict o :: rest) i mem acc =
      ({ success := false,
         error := some ("Step " ++ toString i ++ " failed: " ++ e),
         goal := goal, results := acc ++ [executeStep col mem (.dict o) i],
         finalMemory := (saveOne mem (.dict o) (executeStep col mem (.dict o) i)).getContext },
       saveOne mem (.dict o) (executeStep col mem (.dict o) i)) := by
    simp only [runSteps, herr]
  rw [hrun, hmem2]
  refine ⟨rfl, ?_, ?_⟩
  · simp [Memory.store, Memory.getContext, getKey_setKey_self]
  · simp [Memory.store, Memory.retrieve, getKey_setKey_self]

/-- Witness for C10: the failing `get_events` step with
`save_as: "events"` leaves `events = None` in the final memory of the
halted run. -/
theorem claim10_witness :
    getKey (failSaveStep) "save_as" = some (.str "events") ∧
    (executeStep colBoom {} (.dict failSaveStep) 1).error =
      some "Action execution failed: boom" ∧
    ((runSteps colBoom none [Val.dict failSaveStep] 1 {} []).1.success = false ∧
     getKey ((runSteps colBoom none [Val.dict failSaveStep] 1 {} []).1.finalMemory)
       "events" = some Val.null ∧
     ((runSteps colBoom none [Val.dict failSaveStep] 1 {} []).2).retrieve "events" =
       Val.null) := by
  refine ⟨rfl, rfl, ?_⟩
  exact claim10_failed_step_saves_none colBoom none failSaveStep "events" [] 1 {} []
    "Action execution failed: boom" rfl rfl rfl

/-! ### Claim C6 -/

/-- Claim C6: in the executor, a raised exception from the injected
reasoning engine during a reasoning step is a hard failure — the step's
outcome carries `Reasoning execution failed: ...` and the plan halts with
`success=false` — while a successful call whose result is merely flagged
invalid by `validate_reasoning_result` produces no step error and does
not by itself halt the plan (a plan ending at that step still returns
`success=true`). -/
theorem claim6_reasoning_exception_vs_invalid :
    ∀ (col : Collaborators) (mem : Memory) (o : Obj) (i : Nat) (instr : String),
      getKey o "reasoning" = some (.str instr) →
      hasKey o "action" = false →
      ((∀ e, col.reasoningExec instr mem = .error e →
          (executeStep col mem (.dict o) i).error =
            some ("Reasoning execution failed: " ++ e) ∧
          ∀ goal rest acc,
            ((runSteps col goal (Val.dict o :: rest) i mem acc).1).success = false) ∧
       (∀ r, col.reasoningExec instr mem = .ok r →
          (executeStep col mem (.dict o) i).error = none ∧
          (executeStep col mem (.dict o) i).isValid =
            some (col.validateReasoning r instr) ∧
          ∀ goal acc,
            ((runSteps col goal [Val.dict o] i mem acc).1).success = true)) := by
  intro col mem o i instr hreas hact
  have hr : hasKey o "reasoning" = true := hasKey_of_getKey o "reasoning" (.str instr) hreas
  have hstep : executeStep col mem (.dict o) i =
      { executeReasoningStep col mem o with stepNumber := i } := by
    unfold executeStep
    simp [hact, hr]
  constructor
  · intro e he
    have herr : executeStep col mem (.dict o) i =
        { stepType := "reasoning",
          error := some ("Reasoning execution failed: " ++ e),
          instruction := some instr, stepNumber := i } := by
      rw [hstep]
      unfold executeReasoningStep
      rw [hreas]
      simp [asStr, he]
    refine ⟨by rw [herr], ?_⟩
    intro goal rest acc
    simp only [runSteps, herr]
  · intro r hok
    have hokstep : executeStep col mem (.dict o) i =
        { stepType := "reasoning", instruction := some instr, result := some r,
          isValid := some (col.validateReasoning r instr), stepNumber := i } := by
      rw [hstep]
      unfold executeReasoningStep
      rw [hreas]
      simp [asStr, hok]
    refine ⟨by rw [hokstep], by rw [hokstep], ?_⟩
    intro goal acc
    simp only [runSteps, hokstep]

/-- Witness for C6: with an engine that raises, the reasoning step halts
the one-step plan; with an engine returning the empty string the validity
flag is `false` yet the one-step plan still succeeds. -/
theorem claim6_witness :
    (executeStep colLLMDown {} (.dict reasonStep) 1).error =
      some "Reasoning execution failed: LLM unavailable" ∧
    ((runSteps colLLMDown none [Val.dict reasonStep] 1 {} []).1).success = false ∧
    (executeStep colEmptyReason {} (.dict reasonStep) 1).error = none ∧
    (executeStep colEmptyReason {} (.dict reasonStep) 1).isValid = some false ∧
    ((runSteps colEmptyReason none [Val.dict reasonStep] 1 {} []).1).success = true := by
  have h1 := (claim6_reasoning_exception_vs_invalid colLLMDown {} reasonStep 1 "think"
    rfl rfl).1 "LLM unavailable" rfl
  have h2 := (claim6_reasoning_exception_vs_invalid colEmptyReason {} reasonStep 1 "think"
    rfl rfl).2 (.str "") rfl
  exact ⟨h1.1, h1.2 none [] [], h2.1, h2.2.1, h2.2.2 none []⟩

/-! ### Claim C5 -/

/-- The scan is lossless: re-emitting each token's matched characters
reproduces the input (so the match enumeration covers the whole string,
and every non-match position survives verbatim). -/
theorem goScan_unparse :
    ∀ (st : Option (List Char)) (l : List Char),
      ((goScan st l).map unparseTok).flatten =
        match st with
        | none => l
        | some acc => '$' :: lbraceC :: (acc.reverse ++ l) := by
  have hsing : ∀ (xs : List Char), (List.map (unparseTok ∘ Tok.lit) xs).flatten = xs := by
    intro xs
    induction xs with
    | nil => rfl
    | cons a as ih => simp [unparseTok, ih]
  intro st l
  induction st, l using goScan.induct <;>
    simp_all [goScan, unparseTok]
  next acc =>
    rw [← List.map_reverse]
    exact hsing _
  next cs head tail ih =>
    simp [chars, String.toList, List.append_assoc]

/-- Claim C5: `substitute_templates` rewrites the input along the match
decomposition — every matched `$\x7bname\x7d` whose name is stored
becomes the stringified stored value and every unresolved match is kept
verbatim (that is the content of `renderTok`); the scan loses no
characters; when no referenced name is stored, and in particular when the
text contains no `$\x7bname\x7d` pattern at all, the text is returned
unchanged.  The function is total, so no exception is ever raised. -/
theorem claim5_substitute_templates :
    ∀ (m : Memory) (text : String),
      m.substituteTemplates text =
        String.mk (((scanTemplates text).map (renderTok m.vars)).flatten) ∧
      String.mk (((scanTemplates text).map unparseTok).flatten) = text ∧
      ((∀ n ∈ findTemplateVars text, m.hasVariable n = false) →
         m.substituteTemplates text = text) ∧
      (findTemplateVars text = [] → m.substituteTemplates text = text) := by
  intro m text
  have hunparse : String.mk (((scanTemplates text).map unparseTok).flatten) = text := by
    have h := goScan_unparse none (chars text)
    simp only [scanTemplates]
    rw [h]
    rfl
  have hpart3 : (∀ n ∈ findTemplateVars text, m.hasVariable n = false) →
      m.substituteTemplates text = text := by
    intro hall
    have heq : (scanTemplates text).map (renderTok m.vars) =
        (scanTemplates text).map unparseTok := by
      apply List.map_congr_left
      intro t ht
      cases t with
      | lit c => rfl
      | var n =>
          have hn : n ∈ findTemplateVars text := by
            show n ∈ (scanTemplates text).filterMap tokVar
            exact List.mem_filterMap.mpr ⟨.var n, ht, rfl⟩
          have hfa := hall n hn
          simp only [Memory.hasVariable] at hfa
          have hnone : getKey m.vars n = none :=
            getKey_eq_none_of_not_hasKey _ _ hfa
          simp [renderTok, unparseTok, hnone]
    show String.mk (((scanTemplates text).map (renderTok m.vars)).flatten) = text
    rw [heq, hunparse]
  refine ⟨rfl, hunparse, hpart3, fun hempty => hpart3 ?_⟩
  rw [hempty]
  intro n hn
  cases hn

/-- Witness for C5: a stored name is substituted with the stringified
value, a template-free text and a text with only unresolved names come
back unchanged. -/
theorem claim5_witness :
    (Memory.substituteTemplates { vars := [("slot", Val.str "7:00 PM")] }
       "at $\x7bslot\x7d" = "at 7:00 PM") ∧
    (Memory.substituteTemplates { vars := [("slot", Val.str "7:00 PM")] }
       "no vars here" = "no vars here") ∧
    (Memory.substituteTemplates { vars := [] } "keep $\x7bmissing\x7d" =
       "keep $\x7bmissing\x7d") := by
  refine ⟨by rfl, ?_, ?_⟩
  · exact (claim5_substitute_templates { vars := [("slot", Val.str "7:00 PM")] }
      "no vars here").2.2.2 (by rfl)
  · exact (claim5_substitute_templates { vars := [] }
      "keep $\x7bmissing\x7d").2.2.1 (fun n _ => rfl)

/-! ### Claim C4 -/

/-- The running defined-set of the memory-reference walk equals, at every
index, the `save_as` names of the strictly earlier steps. -/
theorem memRefLoop_eq :
    ∀ (steps : List Val) (d : List String) (i : Nat),
      memRefLoop d i steps =
        ((List.range steps.length).map
          (fun k => stepRefErrors (d ++ ((steps.take k).map saveOfStep).flatten) (i + k)
            (steps.getD k Val.null))).flatten := by
  intro steps
  induction steps with
  | nil => intro d i; rfl
  | cons s rest ih =>
      intro d i
      simp only [memRefLoop]
      rw [ih (d ++ saveOfStep s) (i + 1)]
      rw [List.length_cons, List.range_succ_eq_map]
      simp only [List.map_cons, List.flatten_cons, List.take_zero, List.map_nil,
        List.flatten_nil, List.append_nil, Nat.add_zero, List.getD_cons_zero, List.map_map]
      congr 1
      apply congrArg List.flatten
      apply List.map_congr_left
      intro k hk
      simp only [Function.comp_apply, List.take_succ_cons, List.map_cons,
        List.flatten_cons, List.getD_cons_succ]
      rw [← List.append_assoc]
      have harith : i + (k + 1) = i + 1 + k := by omega
      rw [harith]

/-- Claim C4: the memory-reference validation walks the steps in declared
order with a defined set seeded empty — its output is exactly the errors
obtained by checking each step against the `save_as` names of the
strictly earlier steps (`earlierSaves`): every `$\x7bname\x7d` reference
in a string argument whose name is not the `save_as` of a strictly
earlier step is flagged by `undefMsg` naming the variable and argument,
and a step's own `save_as` becomes available only to later steps. -/
theorem claim4_undefined_variable_walk :
    ∀ (steps : List Val), validateMemoryReferences steps = specMemRefErrors steps := by
  intro steps
  unfold validateMemoryReferences specMemRefErrors earlierSaves
  rw [memRefLoop_eq steps [] 0]
  simp

/-! ### Claim C2 -/

/-- Characterization of a failing run of the step loop: the executed
steps are a prefix `pre ++ [x]` of the step list, exactly one result per
dispatched step is appended, only the last one carries an error, the
plan-level error names the 1-based failing index, the final memory is the
replay of the `save_as` writes of the executed steps, and the steps after
the failing one are irrelevant to the outcome (they are never
dispatched). -/
theorem runSteps_fail_spec (col : Collaborators) (goal : Option Val) :
    ∀ (steps : List Val) (i : Nat) (mem : Memory) (acc : List StepResult)
      (res : ExecRes) (memF : Memory),
      runSteps col goal steps i mem acc = (res, memF) → res.success = false →
      ∃ pre x post newrs sr e,
        steps = pre ++ x :: post ∧
        res.results = acc ++ newrs ∧
        newrs.length = pre.length + 1 ∧
        newrs.getLast? = some sr ∧ sr.error = some e ∧
        (∀ r ∈ newrs.dropLast, r.error = none) ∧
        res.error = some ("Step " ++ toString (i + pre.length) ++ " failed: " ++ e) ∧
        memF = applySaves mem ((pre ++ [x]).zip newrs) ∧
        res.finalMemory = memF.getContext ∧
        ∀ post2, runSteps col goal (pre ++ x :: post2) i mem acc = (res, memF) := by
  intro steps
  induction steps with
  | nil =>
      intro i mem acc res memF hrun hfail
      simp only [runSteps] at hrun
      injection hrun with hres hmem
      subst hres
      simp at hfail
  | cons step rest ih =>
      intro i mem acc res memF hrun hfail
      simp only [runSteps] at hrun
      rcases herr : (executeStep col mem step i).error with _ | e0
      · rw [herr] at hrun
        obtain ⟨pre', x, post, newrs', sr, e, h1, h2, h3, h4, h5, h6, h7, h8, h9, h10⟩ :=
          ih (i + 1) (saveOne mem step (executeStep col mem step i))
            (acc ++ [executeStep col mem step i]) res memF hrun hfail
        have hne : newrs' ≠ [] := by
          intro hh
          rw [hh] at h3
          simp at h3
        rcases newrs' with _ | ⟨y, ys⟩
        · exact absurd rfl hne
        refine ⟨step :: pre', x, post, executeStep col mem step i :: y :: ys, sr, e,
          ?_, ?_, ?_, ?_, h5, ?_, ?_, ?_, h9, ?_⟩
        · rw [h1]
          rfl
        · rw [h2]
          simp
        · simp only [List.length_cons] at h3 ⊢
          omega
        · rw [List.getLast?_cons_cons]
          exact h4
        · intro r hr
          have hdl : (executeStep col mem step i :: y :: ys).dropLast =
              executeStep col mem step i :: (y :: ys).dropLast := rfl
          rw [hdl] at hr
          rcases List.mem_cons.mp hr with hr1 | hr1
          · rw [hr1]
            exact herr
          · exact h6 r hr1
        · have harith : i + (step :: pre').length = i + 1 + pre'.length := by
            simp only [List.length_cons]
            omega
          rw [harith]
          exact h7
        · rw [List.cons_append, List.zip_cons_cons]
          simp only [applySaves]
          exact h8
        · intro post2
          have hcont := h10 post2
          rw [List.cons_append]
          simp only [runSteps, herr]
          exact hcont
      · rw [herr] at hrun
        injection hrun with hres hmem
        subst hres
        subst hmem
        refine ⟨[], step, rest, [executeStep col mem step i], executeStep col mem step i,
          e0, rfl, rfl, rfl, rfl, herr, ?_, ?_, ?_, rfl, ?_⟩
        · intro r hr
          simp at hr
        · simp
        · simp [applySaves]
        · intro post2
          rw [List.nil_append]
          simp only [runSteps, herr]

/-- Claim C2: for a valid plan whose execution fails, the run halted at
the first erroring step — `results` holds exactly the dispatched steps
(one per step of the prefix, the failing one last, the earlier ones
error-free), the plan error names the 1-based failing index, the reported
`final_memory` is the replay of the `save_as` writes made up to and
including the failing step, and any steps after the failing one have no
influence on the outcome (no later step is dispatched). -/
theorem claim2_halt_on_first_error :
    ∀ (col : Collaborators) (schema : Schema) (plan : Obj) (mem0 : Memory)
      (res : ExecRes) (memF : Memory),
      (validatePlan plan schema).1 = true →
      executePlan col schema plan mem0 = (res, memF) →
      res.success = false →
      ∃ pre x post sr e,
        planSteps plan = pre ++ x :: post ∧
        res.results.length = pre.length + 1 ∧
        res.results.getLast? = some sr ∧
        sr.error = some e ∧
        (∀ r ∈ res.results.dropLast, r.error = none) ∧
        res.error = some ("Step " ++ toString (pre.length + 1) ++ " failed: " ++ e) ∧
        memF = applySaves (mem0.clear) ((pre ++ [x]).zip res.results) ∧
        res.finalMemory = memF.getContext ∧
        (∀ post2, runSteps col (getKey plan "goal") (pre ++ x :: post2) 1
          (mem0.clear) [] = (res, memF)) := by
  intro col schema plan mem0 res memF hval hrun hfail
  have hrun2 : runSteps col (getKey plan "goal") (planSteps plan) 1 (mem0.clear) [] =
      (res, memF) := by
    simp only [executePlan, hval, if_true] at hrun
    exact hrun
  obtain ⟨pre, x, post, newrs, sr, e, h1, h2, h3, h4, h5, h6, h7, h8, h9, h10⟩ :=
    runSteps_fail_spec col (getKey plan "goal") (planSteps plan) 1 (mem0.clear) []
      res memF hrun2 hfail
  rw [List.nil_append] at h2
  rw [← h2] at h3 h4 h6 h8
  have harith : pre.length + 1 = 1 + pre.length := by omega
  refine ⟨pre, x, post, sr, e, h1, h3, h4, h5, h6, ?_, h8, h9, h10⟩
  rw [harith]
  exact h7

/-- Witness for C2: the three-step scenario plan of the spec with an
action collaborator that raises on the first step — execution fails, and
the theorem yields the halt characterization. -/
theorem claim2_witness :
    (validatePlan scenarioPlan demoSchema).1 = true ∧
    ((executePlan colBoom demoSchema scenarioPlan {}).1).success = false ∧
    ((executePlan colBoom demoSchema scenarioPlan {}).1).results.length = 1 ∧
    ∃ pre x post sr e,
      planSteps scenarioPlan = pre ++ x :: post ∧
      ((executePlan colBoom demoSchema scenarioPlan {}).1).results.length =
        pre.length + 1 ∧
      ((executePlan colBoom demoSchema scenarioPlan {}).1).results.getLast? = some sr ∧
      sr.error = some e ∧
      (∀ r ∈ ((executePlan colBoom demoSchema scenarioPlan {}).1).results.dropLast,
        r.error = none) ∧
      ((executePlan colBoom demoSchema scenarioPlan {}).1).error =
        some ("Step " ++ toString (pre.length + 1) ++ " failed: " ++ e) ∧
      (executePlan colBoom demoSchema scenarioPlan {}).2 =
        applySaves (Memory.clear {})
          ((pre ++ [x]).zip ((executePlan colBoom demoSchema scenarioPlan {}).1).results) ∧
      ((executePlan colBoom demoSchema scenarioPlan {}).1).finalMemory =
        ((executePlan colBoom demoSchema scenarioPlan {}).2).getContext ∧
      (∀ post2, runSteps colBoom (getKey scenarioPlan "goal") (pre ++ x :: post2) 1
        (Memory.clear {}) [] =
        ((executePlan colBoom demoSchema scenarioPlan {}).1,
         (executePlan colBoom demoSchema scenarioPlan {}).2)) := by
  refine ⟨rfl, rfl, rfl, ?_⟩
  exact claim2_halt_on_first_error colBoom demoSchema scenarioPlan {}
    (executePlan colBoom demoSchema scenarioPlan {}).1
    (executePlan colBoom demoSchema scenarioPlan {}).2 rfl rfl rfl

end SAM
